import Mathlib

set_option maxRecDepth 4000

set_option allowUnsafeReducibility true

attribute [semireducible] Rat.mul Rat.add Rat.sub Rat.neg Rat.div Rat.inv

/-!
Shallow embedding of the `rust-data-logger-v2` repository.

The Rust floating point values (`f32` in the Modbus decoder, `f64` for
log values and scaling) are modelled exactly: a float is NaN, a signed
infinity, or an exact dyadic rational, and every arithmetic operation
rounds its exact rational result to the target format with the IEEE-754
round-to-nearest-even rule.
-/

/-- A floating point datum (`f32` or `f64`): NaN, a signed infinity
(`true` = negative), or a finite value carried as its exact rational. -/
inductive Fp where
  | nan : Fp
  | inf : Bool → Fp
  | fin : ℚ → Fp
deriving DecidableEq

/-- `2 ^ e` as a rational, for an integer exponent. -/
def pow2z (e : ℤ) : ℚ :=
  if 0 ≤ e then ((2 ^ e.toNat : ℕ) : ℚ) else 1 / ((2 ^ (-e).toNat : ℕ) : ℚ)

/-- Fuel-driven computation of `⌊log₂ n⌋` (the fuel argument only bounds
the recursion; `natLog2 n` halves `n` until it drops below 2). -/
def natLog2Aux : ℕ → ℕ → ℕ
  | 0, _ => 0
  | f + 1, n => if n < 2 then 0 else natLog2Aux f (n / 2) + 1

/-- `⌊log₂ n⌋` for `n ≥ 1` (0 at 0). -/
def natLog2 (n : ℕ) : ℕ := natLog2Aux n n

/-- Round a nonnegative rational to the nearest natural, ties to even. -/
def rne (x : ℚ) : ℕ :=
  let n := x.num.toNat
  let d := x.den
  let q := n / d
  let r := n % d
  if 2 * r < d then q
  else if d < 2 * r then q + 1
  else if q % 2 = 0 then q else q + 1

/-- The integer `e` with `2 ^ e ≤ a < 2 ^ (e + 1)`, for a positive
rational `a` (junk value elsewhere). -/
def ratLog2 (a : ℚ) : ℤ :=
  let n := a.num.toNat
  let d := a.den
  let k := natLog2 n
  let j := natLog2 d
  if j ≤ k then
    (if d * 2 ^ (k - j) ≤ n then ((k : ℤ) - j) else ((k : ℤ) - j) - 1)
  else
    (if d ≤ n * 2 ^ (j - k) then ((k : ℤ) - j) else ((k : ℤ) - j) - 1)

/-- IEEE-754 round to nearest, ties to even.  `prec` is the precision in
bits (24 for binary32, 53 for binary64), `uMin` the exponent of the
smallest subnormal ulp (-149 / -1074), `ovf` the overflow threshold
(`2^128` / `2^1024`). -/
def roundFloat (prec : ℕ) (uMin : ℤ) (ovf : ℚ) (q : ℚ) : Fp :=
  if q = 0 then Fp.fin 0
  else
    let a := |q|
    let e := ratLog2 a
    let u := max uMin (e - ((prec : ℤ) - 1))
    let m := rne (a / pow2z u)
    let r := (m : ℚ) * pow2z u
    if ovf ≤ r then Fp.inf (decide (q < 0))
    else Fp.fin (if q < 0 then -r else r)

/-- Round an exact rational to `f32` (binary32). -/
def round32 (q : ℚ) : Fp := roundFloat 24 (-149) ((2 ^ 128 : ℕ) : ℚ) q

/-- Round an exact rational to `f64` (binary64). -/
def round64 (q : ℚ) : Fp := roundFloat 53 (-1074) ((2 ^ 1024 : ℕ) : ℚ) q

/-- Is the value finite (Rust `is_finite`)? -/
def isFiniteFp : Fp → Bool
  | Fp.fin _ => true
  | _ => false

/-- IEEE `<` comparison: false whenever either side is NaN. -/
def flt : Fp → Fp → Bool
  | Fp.nan, _ => false
  | _, Fp.nan => false
  | Fp.inf s, Fp.inf t => s && !t
  | Fp.inf s, Fp.fin _ => s
  | Fp.fin _, Fp.inf t => !t
  | Fp.fin a, Fp.fin b => decide (a < b)

/-- IEEE subtraction in `f32`. -/
def fsub32 : Fp → Fp → Fp
  | Fp.nan, _ => Fp.nan
  | _, Fp.nan => Fp.nan
  | Fp.inf s, Fp.inf t => if s = t then Fp.nan else Fp.inf s
  | Fp.inf s, Fp.fin _ => Fp.inf s
  | Fp.fin _, Fp.inf t => Fp.inf (!t)
  | Fp.fin a, Fp.fin b => round32 (a - b)

/-- IEEE absolute value (sign-bit clear). -/
def fabsFp : Fp → Fp
  | Fp.nan => Fp.nan
  | Fp.inf _ => Fp.inf false
  | Fp.fin a => Fp.fin |a|

/-- IEEE multiplication in `f64`. -/
def fmul64 : Fp → Fp → Fp
  | Fp.nan, _ => Fp.nan
  | _, Fp.nan => Fp.nan
  | Fp.inf s, Fp.inf t => Fp.inf (xor s t)
  | Fp.inf s, Fp.fin b => if b = 0 then Fp.nan else Fp.inf (xor s (decide (b < 0)))
  | Fp.fin a, Fp.inf t => if a = 0 then Fp.nan else Fp.inf (xor (decide (a < 0)) t)
  | Fp.fin a, Fp.fin b => round64 (a * b)

/-- IEEE addition in `f64`. -/
def fadd64 : Fp → Fp → Fp
  | Fp.nan, _ => Fp.nan
  | _, Fp.nan => Fp.nan
  | Fp.inf s, Fp.inf t => if s = t then Fp.inf s else Fp.nan
  | Fp.inf s, Fp.fin _ => Fp.inf s
  | Fp.fin _, Fp.inf t => Fp.inf t
  | Fp.fin a, Fp.fin b => round64 (a + b)

/-- Decode a 32-bit pattern as an IEEE binary32 value
(sign / 8-bit exponent / 23-bit fraction). -/
def decodeF32 (bits : ℕ) : Fp :=
  let sign : Bool := bits / 2 ^ 31 % 2 == 1
  let ex : ℕ := bits / 2 ^ 23 % 2 ^ 8
  let frac : ℕ := bits % 2 ^ 23
  if ex = 255 then
    (if frac = 0 then Fp.inf sign else Fp.nan)
  else if ex = 0 then
    Fp.fin ((if sign then (-1 : ℚ) else 1) * ((frac : ℚ) / ((2 ^ 149 : ℕ) : ℚ)))
  else
    Fp.fin ((if sign then (-1 : ℚ) else 1) *
      (((2 ^ 23 + frac : ℕ) : ℚ) * ((2 ^ ex : ℕ) : ℚ) / ((2 ^ 150 : ℕ) : ℚ)))

/-- `u32::to_be_bytes`. -/
def u32ToBeBytes (n : ℕ) : List ℕ :=
  [n / 2 ^ 24 % 256, n / 2 ^ 16 % 256, n / 2 ^ 8 % 256, n % 256]

/-- `u32::to_le_bytes`. -/
def u32ToLeBytes (n : ℕ) : List ℕ :=
  [n % 256, n / 2 ^ 8 % 256, n / 2 ^ 16 % 256, n / 2 ^ 24 % 256]

/-- `f32::from_be_bytes`. -/
def f32FromBeBytes (l : List ℕ) : Fp :=
  decodeF32 (l.getD 0 0 * 2 ^ 24 + l.getD 1 0 * 2 ^ 16 + l.getD 2 0 * 2 ^ 8 + l.getD 3 0)

/-- `f32::from_le_bytes`. -/
def f32FromLeBytes (l : List ℕ) : Fp :=
  decodeF32 (l.getD 3 0 * 2 ^ 24 + l.getD 2 0 * 2 ^ 16 + l.getD 1 0 * 2 ^ 8 + l.getD 0 0)

example : decodeF32 0x42480000 = Fp.fin 50 := by decide
example : round32 ((201 : ℚ)/4 - 50) = Fp.fin (1/4) := by decide
example : round32 (-50 - 1 / ((2 ^ 140 : ℕ) : ℚ)) = Fp.fin (-50) := by decide

/-! ### Modbus client (`src/modbus.rs`, `src/config.rs`, `src/database.rs`) -/

/-- `config::DataType`. -/
inductive DataType where
  | coil
  | discreteInput
  | holdingRegister
  | inputRegister
  | float32
  | uint16
  | int16
  | uint32
  | int32
deriving DecidableEq

/-- `config::ScalingConfig`; multiplier and offset are finite `f64`
configuration values, carried as their exact rationals. -/
structure ScalingConfig where
  multiplier : ℚ
  offset : ℚ
  unit : Option String
deriving DecidableEq

/-- `config::TagConfig` (the fields `read_tag` and `apply_scaling` use). -/
structure TagConfig where
  name : String
  address : ℕ
  size : ℕ
  data_type : DataType
  scaling : Option ScalingConfig
  description : Option String
deriving DecidableEq

/-- `database::DeviceTag` (the fields used by the Modbus reader and by the
scheduler). -/
structure DeviceTag where
  name : String
  address : ℕ
  size : ℕ
  data_type : String
  scaling_multiplier : ℚ
  scaling_offset : ℚ
  unit : Option String
  description : Option String
  enabled : Bool
  schedule_group_id : Option String
deriving DecidableEq

/-- `database::LogEntry`. -/
structure LogEntry where
  id : Option ℕ
  device_id : String
  tag_name : String
  value : Fp
  quality : String
  timestamp : ℤ
  unit : Option String
deriving DecidableEq

/-- The Modbus TCP transport behind `tokio_modbus`: the device's four data
tables plus a per-request failure predicate (an IO or protocol error for
the given address/count request). -/
structure ModbusTransport where
  coils : ℕ → Bool
  discreteInputs : ℕ → Bool
  holdingRegisters : ℕ → ℕ
  inputRegisters : ℕ → ℕ
  failsCoils : ℕ → ℕ → Bool
  failsDiscrete : ℕ → ℕ → Bool
  failsHolding : ℕ → ℕ → Bool
  failsInput : ℕ → ℕ → Bool

/-- `ctx.read_coils(addr, cnt)`: `cnt` coils starting at `addr`, or an
error. -/
def readCoils (t : ModbusTransport) (a c : ℕ) : Option (List Bool) :=
  if t.failsCoils a c then none else some ((List.range c).map fun i => t.coils (a + i))

/-- `ctx.read_discrete_inputs(addr, cnt)`. -/
def readDiscreteInputs (t : ModbusTransport) (a c : ℕ) : Option (List Bool) :=
  if t.failsDiscrete a c then none else some ((List.range c).map fun i => t.discreteInputs (a + i))

/-- `ctx.read_holding_registers(addr, cnt)`: register values are 16-bit. -/
def readHoldingRegisters (t : ModbusTransport) (a c : ℕ) : Option (List ℕ) :=
  if t.failsHolding a c then none
  else some ((List.range c).map fun i => t.holdingRegisters (a + i) % 65536)

/-- `ctx.read_input_registers(addr, cnt)`. -/
def readInputRegisters (t : ModbusTransport) (a c : ℕ) : Option (List ℕ) :=
  if t.failsInput a c then none
  else some ((List.range c).map fun i => t.inputRegisters (a + i) % 65536)

/-- `combined_abcd = ((reg0 as u32) << 16) | (reg1 as u32)` decoded with
`to_be_bytes` / `from_be_bytes`; for `reg0, reg1 < 2^16` the `|` of the
disjoint bit ranges is addition. -/
def valueAbcd (reg0 reg1 : ℕ) : Fp := f32FromBeBytes (u32ToBeBytes (reg0 * 65536 + reg1))

/-- `combined_cdab = ((reg1 as u32) << 16) | (reg0 as u32)` via big-endian
bytes. -/
def valueCdab (reg0 reg1 : ℕ) : Fp := f32FromBeBytes (u32ToBeBytes (reg1 * 65536 + reg0))

/-- `combined_badc` decoded with `to_le_bytes` / `from_le_bytes`. -/
def valueBadc (reg0 reg1 : ℕ) : Fp := f32FromLeBytes (u32ToLeBytes (reg0 * 65536 + reg1))

/-- `combined_dcba` decoded with `to_le_bytes` / `from_le_bytes`. -/
def valueDcba (reg0 reg1 : ℕ) : Fp := f32FromLeBytes (u32ToLeBytes (reg1 * 65536 + reg0))

/-- `(val - 50.0).abs()` in `f32`. -/
def distTo50 (v : Fp) : Fp := fabsFp (fsub32 v (Fp.fin 50))

/-- The candidate filter `val.is_finite() && val > 0.0 && val < 1000.0`. -/
def validCandidate (v : Fp) : Bool :=
  isFiniteFp v && flt (Fp.fin 0) v && flt v (Fp.fin 1000)

/-- One iteration of the frequency-candidate loop: the accumulator holds
`(best_value, best_distance)`. -/
def selStep (acc : Fp × Fp) (c : Fp) : Fp × Fp :=
  if validCandidate c && flt (distTo50 c) acc.2 then (c, distTo50 c) else acc

/-- The candidate loop of `read_tag`, started from
`(value_abcd, (value_abcd - 50.0).abs())`. -/
def selectClosestTo50 (cands : List Fp) (init : Fp) : Fp :=
  (cands.foldl selStep (init, distTo50 init)).1

/-- The four byte-order candidates, in the order the source lists them. -/
def float32Candidates (reg0 reg1 : ℕ) : List Fp :=
  [valueAbcd reg0 reg1, valueCdab reg0 reg1, valueBadc reg0 reg1, valueDcba reg0 reg1]

/-- The value `read_tag` computes for a float32 tag from the first two raw
registers (modbus.rs, `DataType::Float32` arm). -/
def decodeFloat32 (addr reg0 reg1 : ℕ) : Fp :=
  if addr = 19050 then
    selectClosestTo50 (float32Candidates reg0 reg1) (valueAbcd reg0 reg1)
  else valueAbcd reg0 reg1

/-- `result[0] as i16 as f64`. -/
def i16OfU16 (x : ℕ) : ℤ := if x < 2 ^ 15 then (x : ℤ) else (x : ℤ) - 2 ^ 16

/-- `value as i32 as f64` for a 32-bit pattern. -/
def i32OfU32 (x : ℕ) : ℤ := if x < 2 ^ 31 then (x : ℤ) else (x : ℤ) - 2 ^ 32

/-- `ModbusClient::read_tag`.  `none` models the `Err` outcomes: no client
connected, a transport error, or a short float32 read. -/
def read_tag (client : Option ModbusTransport) (tag : TagConfig) : Option Fp :=
  match client with
  | none => none
  | some t =>
    match tag.data_type with
    | DataType.coil =>
      (readCoils t tag.address 1).map fun r => Fp.fin (if r.getD 0 false then 1 else 0)
    | DataType.discreteInput =>
      (readDiscreteInputs t tag.address 1).map fun r => Fp.fin (if r.getD 0 false then 1 else 0)
    | DataType.holdingRegister =>
      (readHoldingRegisters t tag.address 1).map fun r => Fp.fin (r.getD 0 0)
    | DataType.uint16 =>
      (readHoldingRegisters t tag.address 1).map fun r => Fp.fin (r.getD 0 0)
    | DataType.inputRegister =>
      (readInputRegisters t tag.address 1).map fun r => Fp.fin (r.getD 0 0)
    | DataType.int16 =>
      (readHoldingRegisters t tag.address 1).map fun r => Fp.fin (i16OfU16 (r.getD 0 0))
    | DataType.uint32 =>
      (readHoldingRegisters t tag.address 2).map fun r =>
        Fp.fin (r.getD 1 0 * 2 ^ 16 + r.getD 0 0)
    | DataType.int32 =>
      (readHoldingRegisters t tag.address 2).map fun r =>
        Fp.fin (i32OfU32 (r.getD 1 0 * 2 ^ 16 + r.getD 0 0))
    | DataType.float32 =>
      (readHoldingRegisters t tag.address tag.size).bind fun r =>
        if r.length < 2 then none
        else some (decodeFloat32 tag.address (r.getD 0 0) (r.getD 1 0))

/-- `ModbusClient::apply_scaling`: `value * multiplier + offset` in `f64`
(the energy-tag debug print has no effect on the value). -/
def apply_scaling (value : Fp) (tag : TagConfig) : Fp :=
  match tag.scaling with
  | some s => fadd64 (fmul64 value (Fp.fin s.multiplier)) (Fp.fin s.offset)
  | none => value

/-- `ModbusClient::parse_data_type`: note that the match has no `"int32"`
arm, so that string falls into the `HoldingRegister` default. -/
def parse_data_type (s : String) : DataType :=
  if s = "coil" then DataType.coil
  else if s = "discrete_input" then DataType.discreteInput
  else if s = "holding_register" then DataType.holdingRegister
  else if s = "input_register" then DataType.inputRegister
  else if s = "float32" ∨ s = "F32" ∨ s = "FLOAT" then DataType.float32
  else if s = "uint16" then DataType.uint16
  else if s = "int16" then DataType.int16
  else if s = "uint32" then DataType.uint32
  else DataType.holdingRegister

/-- The `TagConfig` that `read_specific_tags` builds from a `DeviceTag`. -/
def tagConfigOfDeviceTag (dt : DeviceTag) : TagConfig :=
  { name := dt.name
    address := dt.address
    size := dt.size
    data_type := parse_data_type dt.data_type
    scaling := some { multiplier := dt.scaling_multiplier, offset := dt.scaling_offset,
                      unit := dt.unit }
    description := dt.description }

/-- `Database::insert_log_entry`, abstracted to its effect on the
`log_entries` table: append one row. -/
def insert_log_entry (db : List LogEntry) (e : LogEntry) : List LogEntry := db ++ [e]

/-- The `quality: "Good"` entry `read_specific_tags` builds on a
successful per-tag read. -/
def goodEntry (deviceId : String) (now : ℤ) (dt : DeviceTag) (scaled : Fp) : LogEntry :=
  { id := none, device_id := deviceId, tag_name := dt.name, value := scaled,
    quality := "Good", timestamp := now, unit := dt.unit }

/-- The `quality: "Bad"`, value-0.0 entry built on a per-tag failure. -/
def badEntry (deviceId : String) (now : ℤ) (dt : DeviceTag) : LogEntry :=
  { id := none, device_id := deviceId, tag_name := dt.name, value := Fp.fin 0,
    quality := "Bad", timestamp := now, unit := dt.unit }

/-- The per-tag loop of `read_specific_tags`: good entries are inserted
into the database and pushed; bad entries are only pushed. -/
def readSpecificTagsGo (client : Option ModbusTransport) (deviceId : String) (now : ℤ) :
    List DeviceTag → List LogEntry → List LogEntry → List LogEntry × List LogEntry
  | [], db, acc => (db, acc)
  | dt :: rest, db, acc =>
    let tc := tagConfigOfDeviceTag dt
    match read_tag client tc with
    | some v =>
      let e := goodEntry deviceId now dt (apply_scaling v tc)
      readSpecificTagsGo client deviceId now rest (insert_log_entry db e) (acc ++ [e])
    | none =>
      let e := badEntry deviceId now dt
      readSpecificTagsGo client deviceId now rest db (acc ++ [e])

/-- `ModbusClient::read_specific_tags`: returns the updated log table and
the `Result` value. -/
def read_specific_tags (client : Option ModbusTransport) (deviceId : String) (now : ℤ)
    (db : List LogEntry) (tags : List DeviceTag) :
    List LogEntry × Except String (List LogEntry) :=
  let r := readSpecificTagsGo client deviceId now tags db []
  (r.1, Except.ok r.2)

/-! ### Order facts about the IEEE comparison -/

theorem flt_irrefl (x : Fp) : flt x x = false := by
  cases x with
  | nan => rfl
  | inf s => cases s <;> rfl
  | fin a => simp [flt]

theorem flt_asymm {x y : Fp} (h : flt x y = true) : flt y x = false := by
  cases x with
  | nan => simp [flt] at h
  | inf s =>
    cases y with
    | nan => simp [flt] at h
    | inf t => cases s <;> cases t <;> simp_all [flt]
    | fin b => cases s <;> simp_all [flt]
  | fin a =>
    cases y with
    | nan => simp [flt] at h
    | inf t => cases t <;> simp_all [flt]
    | fin b => simp_all [flt]; exact le_of_lt h

theorem valueBadc_eq_valueAbcd (reg0 reg1 : ℕ) :
    valueBadc reg0 reg1 = valueAbcd reg0 reg1 := rfl

theorem valueDcba_eq_valueCdab (reg0 reg1 : ℕ) :
    valueDcba reg0 reg1 = valueCdab reg0 reg1 := rfl

/-- Closed form of the four-candidate loop: since BADC coincides with ABCD
and DCBA with CDAB, the fold keeps ABCD unless CDAB is a valid candidate
strictly closer to 50. -/
theorem selectClosestTo50_eq (reg0 reg1 : ℕ) :
    selectClosestTo50 (float32Candidates reg0 reg1) (valueAbcd reg0 reg1) =
      (if validCandidate (valueCdab reg0 reg1) &&
          flt (distTo50 (valueCdab reg0 reg1)) (distTo50 (valueAbcd reg0 reg1)) then
        valueCdab reg0 reg1
      else valueAbcd reg0 reg1) := by
  have hba := valueBadc_eq_valueAbcd reg0 reg1
  have hdc := valueDcba_eq_valueCdab reg0 reg1
  set a := valueAbcd reg0 reg1 with ha
  set c := valueCdab reg0 reg1 with hc
  unfold selectClosestTo50 float32Candidates
  rw [hba, hdc, ← ha, ← hc]
  simp only [List.foldl]
  rw [show selStep (a, distTo50 a) a = (a, distTo50 a) by
    simp [selStep, flt_irrefl]]
  by_cases h2 : (validCandidate c && flt (distTo50 c) (distTo50 a)) = true
  · rw [show selStep (a, distTo50 a) c = (c, distTo50 c) by simp [selStep, h2]]
    have hacd : flt (distTo50 a) (distTo50 c) = false :=
      flt_asymm (Bool.and_elim_right h2)
    rw [show selStep (c, distTo50 c) a = (c, distTo50 c) by simp [selStep, hacd]]
    rw [show selStep (c, distTo50 c) c = (c, distTo50 c) by
      simp [selStep, flt_irrefl]]
    simp [h2]
  · rw [show selStep (a, distTo50 a) c = (a, distTo50 a) by
      simp only [selStep]; rw [if_neg]; simp [h2]]
    rw [show selStep (a, distTo50 a) a = (a, distTo50 a) by
      simp [selStep, flt_irrefl]]
    rw [show selStep (a, distTo50 a) c = (a, distTo50 a) by
      simp only [selStep]; rw [if_neg]; simp [h2]]
    simp [h2]

/-- C1 (amended): for a float32 tag at the frequency address 19050 the
decoder returns one of the four byte-order candidates; whenever the ABCD
candidate is itself finite, strictly positive and below 1000, the result
is such a valid candidate and no valid candidate lies strictly closer to
50.0 (distances measured by the f32 computation `(val - 50.0).abs()`).
For any other address the decoder returns the ABCD interpretation. -/
theorem float32_freq_selection_spec (addr reg0 reg1 : ℕ) :
    (addr ≠ 19050 → decodeFloat32 addr reg0 reg1 = valueAbcd reg0 reg1) ∧
    (addr = 19050 →
      decodeFloat32 addr reg0 reg1 ∈ float32Candidates reg0 reg1 ∧
      (validCandidate (valueAbcd reg0 reg1) = true →
        validCandidate (decodeFloat32 addr reg0 reg1) = true ∧
        ∀ c ∈ float32Candidates reg0 reg1, validCandidate c = true →
          flt (distTo50 c) (distTo50 (decodeFloat32 addr reg0 reg1)) = false)) := by
  constructor
  · intro hne
    rw [decodeFloat32, if_neg hne]
  · intro haddr
    subst haddr
    have hres : decodeFloat32 19050 reg0 reg1 =
        selectClosestTo50 (float32Candidates reg0 reg1) (valueAbcd reg0 reg1) := by
      rw [decodeFloat32, if_pos rfl]
    rw [hres, selectClosestTo50_eq reg0 reg1]
    by_cases h2 : (validCandidate (valueCdab reg0 reg1) &&
        flt (distTo50 (valueCdab reg0 reg1)) (distTo50 (valueAbcd reg0 reg1))) = true
    · rw [if_pos h2]
      refine ⟨by simp [float32Candidates], ?_⟩
      intro _
      have h2' := h2
      rw [Bool.and_eq_true] at h2'
      refine ⟨h2'.1, ?_⟩
      intro c hc _
      have hda : flt (distTo50 (valueAbcd reg0 reg1))
          (distTo50 (valueCdab reg0 reg1)) = false := flt_asymm h2'.2
      simp only [float32Candidates, List.mem_cons, List.not_mem_nil, or_false] at hc
      rcases hc with h | h | h | h <;> subst h
      · exact hda
      · exact flt_irrefl _
      · rw [valueBadc_eq_valueAbcd]; exact hda
      · rw [valueDcba_eq_valueCdab]; exact flt_irrefl _
    · rw [if_neg h2]
      refine ⟨by simp [float32Candidates], ?_⟩
      intro hva
      refine ⟨hva, ?_⟩
      intro c hc hvc
      simp only [float32Candidates, List.mem_cons, List.not_mem_nil, or_false] at hc
      rcases hc with h | h | h | h
      · subst h; exact flt_irrefl _
      · subst h
        cases hf : flt (distTo50 (valueCdab reg0 reg1)) (distTo50 (valueAbcd reg0 reg1)) with
        | false => rfl
        | true =>
          exact absurd (show (validCandidate (valueCdab reg0 reg1) &&
            flt (distTo50 (valueCdab reg0 reg1)) (distTo50 (valueAbcd reg0 reg1))) = true by
              rw [Bool.and_eq_true]; exact ⟨hvc, hf⟩) h2
      · subst h; rw [valueBadc_eq_valueAbcd]; exact flt_irrefl _
      · subst h
        rw [valueDcba_eq_valueCdab]
        have hvc' : validCandidate (valueCdab reg0 reg1) = true := by
          rw [← valueDcba_eq_valueCdab]; exact hvc
        cases hf : flt (distTo50 (valueCdab reg0 reg1)) (distTo50 (valueAbcd reg0 reg1)) with
        | false => rfl
        | true =>
          exact absurd (show (validCandidate (valueCdab reg0 reg1) &&
            flt (distTo50 (valueCdab reg0 reg1)) (distTo50 (valueAbcd reg0 reg1))) = true by
              rw [Bool.and_eq_true]; exact ⟨hvc', hf⟩) h2

/-- C1 counterexample: at the frequency address 19050 with raw registers
`0x8080, 0x42C8` the CDAB candidate is valid (≈ 100.25) yet the decoder
keeps the ABCD value, which is negative — the selection does not return
the finite, strictly positive, below-1000 candidate nearest 50.0, because
the running best distance is initialised from the invalid ABCD value. -/
theorem float32_freq_selection_counterexample :
    validCandidate (valueCdab 32896 17096) = true ∧
    decodeFloat32 19050 32896 17096 = valueAbcd 32896 17096 ∧
    validCandidate (decodeFloat32 19050 32896 17096) = false ∧
    flt (Fp.fin 0) (decodeFloat32 19050 32896 17096) = false := by decide

/-- Witness for `float32_freq_selection_spec` at the spec's own example:
address 19050, registers `0x4248, 0xF5C3` (ABCD ≈ 50.24). -/
theorem float32_freq_selection_spec_witness :
    validCandidate (valueAbcd 16968 62915) = true ∧
    validCandidate (decodeFloat32 19050 16968 62915) = true :=
  ⟨by decide, (((float32_freq_selection_spec 19050 16968 62915).2 rfl).2 (by decide)).1⟩

/-! ### C5: the `"int32"` device-tag type -/

/-- A Modbus device whose holding registers all read `0xFFFF` and whose
transport never fails. -/
def allFFTransport : ModbusTransport :=
  { coils := fun _ => false
    discreteInputs := fun _ => false
    holdingRegisters := fun _ => 65535
    inputRegisters := fun _ => 0
    failsCoils := fun _ _ => false
    failsDiscrete := fun _ _ => false
    failsHolding := fun _ _ => false
    failsInput := fun _ _ => false }

/-- A `DeviceTag` row declaring the 32-bit signed type `"int32"`. -/
def int32DeviceTag : DeviceTag :=
  { name := "t", address := 0, size := 2, data_type := "int32",
    scaling_multiplier := 1, scaling_offset := 0, unit := none,
    description := none, enabled := true, schedule_group_id := none }

/-- Like `int32DeviceTag` but with type `"uint32"`. -/
def uint32DeviceTag : DeviceTag :=
  { int32DeviceTag with data_type := "uint32" }

/-- C5: `"uint32"` is decoded from two registers as `(reg1 << 16) | reg0`
as the claim states, but `"int32"` is missing from `parse_data_type` and
falls into the `HoldingRegister` default: with both registers `0xFFFF`
the code reads a single register and returns `65535.0` instead of the
two-register sign-extended `-1.0`. -/
theorem parse_data_type_int32_fallback :
    parse_data_type "int32" = DataType.holdingRegister ∧
    parse_data_type "uint32" = DataType.uint32 ∧
    read_tag (some allFFTransport) (tagConfigOfDeviceTag uint32DeviceTag) =
      some (Fp.fin 4294967295) ∧
    read_tag (some allFFTransport) (tagConfigOfDeviceTag int32DeviceTag) =
      some (Fp.fin 65535) ∧
    i32OfU32 (65535 * 2 ^ 16 + 65535) = -1 := by
  refine ⟨rfl, rfl, ?_, ?_, by decide⟩ <;> decide

/-! ### The per-tag read loop as a map (`read_specific_tags`) -/

/-- The entry `read_specific_tags` produces for one input tag: a Good
entry carrying the scaled value on success, a Bad entry carrying 0.0 on
failure. -/
def expectedEntry (client : Option ModbusTransport) (deviceId : String) (now : ℤ)
    (dt : DeviceTag) : LogEntry :=
  match read_tag client (tagConfigOfDeviceTag dt) with
  | some v => goodEntry deviceId now dt (apply_scaling v (tagConfigOfDeviceTag dt))
  | none => badEntry deviceId now dt

theorem goodEntry_quality (deviceId : String) (now : ℤ) (dt : DeviceTag) (v : Fp) :
    (goodEntry deviceId now dt v).quality = "Good" := rfl

theorem badEntry_quality (deviceId : String) (now : ℤ) (dt : DeviceTag) :
    (badEntry deviceId now dt).quality = "Bad" := rfl

theorem readSpecificTagsGo_eq (client : Option ModbusTransport) (deviceId : String)
    (now : ℤ) : ∀ (tags : List DeviceTag) (db acc : List LogEntry),
    readSpecificTagsGo client deviceId now tags db acc =
      (db ++ (tags.map (expectedEntry client deviceId now)).filter
          (fun e => e.quality == "Good"),
       acc ++ tags.map (expectedEntry client deviceId now))
  | [], db, acc => by simp [readSpecificTagsGo]
  | dt :: rest, db, acc => by
    have ih := readSpecificTagsGo_eq client deviceId now rest
    cases hrt : read_tag client (tagConfigOfDeviceTag dt) with
    | some v =>
      simp only [readSpecificTagsGo, hrt]
      rw [ih]
      simp [expectedEntry, hrt, insert_log_entry, goodEntry_quality, List.filter_cons]
    | none =>
      simp only [readSpecificTagsGo, hrt]
      rw [ih]
      simp [expectedEntry, hrt, badEntry_quality, List.filter_cons]

/-- C4: `read_specific_tags` returns `Ok` with exactly one entry per input
tag, in input order with no tag skipped: a Good entry with the scaled
value when the per-tag read succeeds, a Bad entry with value 0.0 when it
fails. -/
theorem read_specific_tags_one_entry_per_tag (client : Option ModbusTransport)
    (deviceId : String) (now : ℤ) (db : List LogEntry) (tags : List DeviceTag) :
    (read_specific_tags client deviceId now db tags).2 =
      Except.ok (tags.map (expectedEntry client deviceId now)) ∧
    (tags.map (expectedEntry client deviceId now)).length = tags.length ∧
    ∀ dt ∈ tags,
      (∀ v, read_tag client (tagConfigOfDeviceTag dt) = some v →
        expectedEntry client deviceId now dt =
          goodEntry deviceId now dt (apply_scaling v (tagConfigOfDeviceTag dt))) ∧
      (read_tag client (tagConfigOfDeviceTag dt) = none →
        expectedEntry client deviceId now dt = badEntry deviceId now dt) := by
  refine ⟨?_, List.length_map _ _, ?_⟩
  · unfold read_specific_tags
    rw [readSpecificTagsGo_eq]
    simp
  · intro dt _
    constructor
    · intro v hv
      simp [expectedEntry, hv]
    · intro hv
      simp [expectedEntry, hv]

/-! ### Scheduler polling tick (`src/logging.rs`) -/

/-- Outcome of one iteration of `schedule_group_polling_loop`. -/
structure PollTickResult where
  db : List LogEntry
  retry : ℕ
  statusWrites : List String
  breakLoop : Bool
deriving DecidableEq

/-- One tick of `schedule_group_polling_loop` for a Modbus device: perform
the read; on `Ok`, reset the retry counter and rewrite the status to
`Reading`; on `Err`, bump the counter and break out of the loop (to
reconnect) once it reaches `retry_count`. -/
def pollTick (client : Option ModbusTransport) (deviceId : String) (now : ℤ)
    (retryCount : ℕ) (tags : List DeviceTag) (db : List LogEntry) (retry : ℕ) :
    PollTickResult :=
  let r := read_specific_tags client deviceId now db tags
  match r.2 with
  | Except.ok _ =>
    { db := r.1, retry := 0, statusWrites := ["Reading"], breakLoop := false }
  | Except.error _ =>
    let retry' := retry + 1
    { db := r.1, retry := retry', statusWrites := [],
      breakLoop := decide (retry' ≥ retryCount) }

/-- C10: `read_specific_tags` returns `Ok` for every tag list and every
connection state — with no client it absorbs the "No client connected"
error into Bad entries — so the scheduler's consecutive-read-failure
branch never fires for a Modbus device: the tick never breaks the loop
and always resets the retry counter. -/
theorem modbus_read_never_fails (client : Option ModbusTransport) (deviceId : String)
    (now : ℤ) (db : List LogEntry) (tags : List DeviceTag) (retryCount retry : ℕ) :
    (read_specific_tags client deviceId now db tags).2.isOk = true ∧
    (read_specific_tags none deviceId now db tags).2 =
      Except.ok (tags.map (badEntry deviceId now)) ∧
    (pollTick client deviceId now retryCount tags db retry).breakLoop = false ∧
    (pollTick client deviceId now retryCount tags db retry).retry = 0 ∧
    (pollTick client deviceId now retryCount tags db retry).statusWrites = ["Reading"] := by
  have hmap : ∀ dt : DeviceTag, expectedEntry none deviceId now dt = badEntry deviceId now dt :=
    fun dt => rfl
  refine ⟨rfl, ?_, rfl, rfl, rfl⟩
  unfold read_specific_tags
  rw [readSpecificTagsGo_eq]
  simp [List.map_congr_left fun dt _ => hmap dt]

/-- C9 (amended): during a tick, the Good-quality entries returned by the
read are appended to the log store by the read call itself, Bad-quality
entries are returned but not appended, and after the (always `Ok`) read
the status is rewritten to `Reading` with the retry counter reset. -/
theorem poll_tick_persistence_spec (client : Option ModbusTransport) (deviceId : String)
    (now : ℤ) (retryCount : ℕ) (tags : List DeviceTag) (db : List LogEntry) (retry : ℕ) :
    (pollTick client deviceId now retryCount tags db retry).db =
      db ++ (tags.map (expectedEntry client deviceId now)).filter
        (fun e => e.quality == "Good") ∧
    (read_specific_tags client deviceId now db tags).2 =
      Except.ok (tags.map (expectedEntry client deviceId now)) ∧
    (pollTick client deviceId now retryCount tags db retry).statusWrites = ["Reading"] ∧
    (pollTick client deviceId now retryCount tags db retry).retry = 0 := by
  refine ⟨?_, ?_, rfl, rfl⟩
  · show (read_specific_tags client deviceId now db tags).1 = _
    unfold read_specific_tags
    rw [readSpecificTagsGo_eq]
  · unfold read_specific_tags
    rw [readSpecificTagsGo_eq]
    simp

/-- A sample enabled device tag (a plain 16-bit holding register). -/
def sampleTag : DeviceTag :=
  { name := "s", address := 7, size := 1, data_type := "uint16",
    scaling_multiplier := 1, scaling_offset := 0, unit := none,
    description := none, enabled := true, schedule_group_id := none }

/-- C9 counterexample: with no connected client a single tag produces one
returned Bad entry, yet the log store is left empty — the Bad entry is
returned but never appended, contradicting "every LogEntry returned by
the read call — Bad-quality entries included — is appended". -/
theorem bad_entry_not_persisted_counterexample :
    (read_specific_tags none "dev" 0 [] [sampleTag]).2 =
      Except.ok [badEntry "dev" 0 sampleTag] ∧
    (read_specific_tags none "dev" 0 [] [sampleTag]).1 = [] ∧
    badEntry "dev" 0 sampleTag ∉ (read_specific_tags none "dev" 0 [] [sampleTag]).1 := by
  refine ⟨rfl, rfl, ?_⟩
  intro h
  rw [show (read_specific_tags none "dev" 0 [] [sampleTag]).1 = [] from rfl] at h
  exact List.not_mem_nil _ h

/-! ### Log table cap enforcement (`Database::cleanup_old_entries`) -/

/-- A row of the `log_entries` table as the cap-enforcement queries see
it: the SQLite `id` and the `timestamp` column (the other columns do not
influence `cleanup_old_entries`). -/
structure LogRow where
  id : ℕ
  timestamp : ℤ
deriving DecidableEq

/-- The `ORDER BY timestamp ASC` comparison. -/
def tsLe (a b : LogRow) : Prop := a.timestamp ≤ b.timestamp

instance : DecidableRel tsLe := fun a b => Int.decLe a.timestamp b.timestamp

instance : IsTotal LogRow tsLe := ⟨fun a b => Int.le_total a.timestamp b.timestamp⟩

instance : IsTrans LogRow tsLe := ⟨fun _ _ _ h h' => Int.le_trans h h'⟩

/-- `Database::cleanup_old_entries(max_entries)`: count the rows; if the
count exceeds the cap, delete the `total - max` rows that come first in
ascending-timestamp order and return the number of deleted rows (the
rows-affected value of the `DELETE`).  The `LIMIT` subquery is modelled
by a stable sort, one realisation of SQLite's tie-unspecified ordering. -/
def doomedIds (maxEntries : ℕ) (table : List LogRow) : List ℕ :=
  ((List.insertionSort tsLe table).take (table.length - maxEntries)).map (fun r => r.id)

/-- Does the `DELETE ... WHERE id IN doomed` keep this row? -/
def keptPred (maxEntries : ℕ) (table : List LogRow) (r : LogRow) : Bool :=
  decide (r.id ∉ doomedIds maxEntries table)

def cleanup_old_entries (maxEntries : ℕ) (table : List LogRow) : ℕ × List LogRow :=
  let totalCount := table.length
  if totalCount ≤ maxEntries then (0, table)
  else
    let kept := table.filter (keptPred maxEntries table)
    (totalCount - kept.length, kept)

theorem dropPred_true (maxEntries : ℕ) (table : List LogRow)
    (hid : table.Pairwise fun a b => a.id ≠ b.id) :
    ∀ a ∈ (List.insertionSort tsLe table).drop (table.length - maxEntries),
      keptPred maxEntries table a = true := by
  have hperm := List.perm_insertionSort tsLe table
  have hidS : (List.insertionSort tsLe table).Pairwise (fun a b => a.id ≠ b.id) :=
    (List.Perm.pairwise_iff (fun h => h.symm) hperm).mpr hid
  have hnodup : ((List.insertionSort tsLe table).map (fun r => r.id)).Nodup :=
    List.pairwise_map.mpr hidS
  have hsplit := List.take_append_drop (table.length - maxEntries)
    (List.insertionSort tsLe table)
  intro a ha
  simp only [keptPred, decide_eq_true_eq]
  intro hmem
  rcases List.mem_map.mp hmem with ⟨y, hy, hyid⟩
  have hnd2 : (List.map (fun r => r.id)
      ((List.insertionSort tsLe table).take (table.length - maxEntries)) ++
      List.map (fun r => r.id)
      ((List.insertionSort tsLe table).drop (table.length - maxEntries))).Nodup := by
    rw [← List.map_append, hsplit]
    exact hnodup
  have hdisj := List.disjoint_of_nodup_append hnd2
  exact hdisj (hyid ▸ List.mem_map_of_mem _ hy) (List.mem_map_of_mem _ ha)

theorem kept_perm_drop (maxEntries : ℕ) (table : List LogRow)
    (hid : table.Pairwise fun a b => a.id ≠ b.id) :
    (table.filter (keptPred maxEntries table)).Perm
      ((List.insertionSort tsLe table).drop (table.length - maxEntries)) := by
  have hperm := List.perm_insertionSort tsLe table
  have hsplit := List.take_append_drop (table.length - maxEntries)
    (List.insertionSort tsLe table)
  have h1 : (table.filter (keptPred maxEntries table)).Perm
      ((List.insertionSort tsLe table).filter (keptPred maxEntries table)) :=
    List.Perm.filter _ hperm.symm
  have hnil : ((List.insertionSort tsLe table).take (table.length - maxEntries)).filter
      (keptPred maxEntries table) = [] := by
    rw [List.filter_eq_nil_iff]
    intro a ha
    simp only [keptPred, decide_eq_true_eq, Decidable.not_not]
    exact List.mem_map_of_mem _ ha
  have hself : ((List.insertionSort tsLe table).drop (table.length - maxEntries)).filter
      (keptPred maxEntries table) =
      (List.insertionSort tsLe table).drop (table.length - maxEntries) :=
    List.filter_eq_self.mpr (dropPred_true maxEntries table hid)
  have h2 : (List.insertionSort tsLe table).filter (keptPred maxEntries table) =
      (List.insertionSort tsLe table).drop (table.length - maxEntries) := by
    conv_lhs => rw [← hsplit]
    rw [List.filter_append, hnil, hself, List.nil_append]
  rw [← h2]
  exact h1

/-- C2: after `cleanup_old_entries(M)` the retained row count is at most
`M`; when the table did not exceed the cap nothing is deleted and the
count returned is 0; when it did, the returned deletion count is
`total - M` and the `M` retained rows are a subset of the table in which
every retained row is strictly newer than every deleted row.  (Row ids
are the unique SQLite ids; timestamps are assumed pairwise distinct, as
ties make "the M newest by timestamp" underdetermined in SQL as well.) -/
theorem cleanup_old_entries_spec (maxEntries : ℕ) (table : List LogRow)
    (hid : table.Pairwise fun a b => a.id ≠ b.id)
    (hts : table.Pairwise fun a b => a.timestamp ≠ b.timestamp) :
    (cleanup_old_entries maxEntries table).2.length ≤ maxEntries ∧
    (table.length ≤ maxEntries → cleanup_old_entries maxEntries table = (0, table)) ∧
    (maxEntries < table.length →
      (cleanup_old_entries maxEntries table).1 = table.length - maxEntries ∧
      (cleanup_old_entries maxEntries table).2.length = maxEntries ∧
      (cleanup_old_entries maxEntries table).2.Sublist table ∧
      ∀ k ∈ (cleanup_old_entries maxEntries table).2, ∀ r ∈ table,
        r ∉ (cleanup_old_entries maxEntries table).2 →
          r.timestamp < k.timestamp) := by
  by_cases hle : table.length ≤ maxEntries
  · have hc : cleanup_old_entries maxEntries table = (0, table) := by
      simp only [cleanup_old_entries, if_pos hle]
    exact ⟨by rw [hc]; exact hle, fun _ => hc, fun hgt => absurd hgt (not_lt.mpr hle)⟩
  · have hgt : maxEntries < table.length := not_le.mp hle
    have hkept : (cleanup_old_entries maxEntries table).2 =
        table.filter (keptPred maxEntries table) := by
      simp only [cleanup_old_entries, if_neg hle]
    have hcnt : (cleanup_old_entries maxEntries table).1 =
        table.length - (table.filter (keptPred maxEntries table)).length := by
      simp only [cleanup_old_entries, if_neg hle]
    have hperm := List.perm_insertionSort tsLe table
    have hpermkd := kept_perm_drop maxEntries table hid
    have hlen : (table.filter (keptPred maxEntries table)).length = maxEntries := by
      rw [hpermkd.length_eq, List.length_drop, hperm.length_eq]
      omega
    refine ⟨by rw [hkept, hlen], fun h => absurd h hle, fun _ => ⟨?_, ?_, ?_, ?_⟩⟩
    · rw [hcnt, hlen]
    · rw [hkept, hlen]
    · rw [hkept]; exact List.filter_sublist table
    · intro k hk r hr hnk
      rw [hkept] at hk hnk
      have hkd : k ∈ (List.insertionSort tsLe table).drop (table.length - maxEntries) :=
        hpermkd.mem_iff.mp hk
      have hrs : r ∈ List.insertionSort tsLe table := hperm.mem_iff.mpr hr
      have hsplit := List.take_append_drop (table.length - maxEntries)
        (List.insertionSort tsLe table)
      have hrsplit : r ∈ (List.insertionSort tsLe table).take (table.length - maxEntries) ++
          (List.insertionSort tsLe table).drop (table.length - maxEntries) := by
        rw [hsplit]; exact hrs
      rcases List.mem_append.mp hrsplit with hrt | hrd
      · have hsorted : List.Pairwise tsLe (List.insertionSort tsLe table) :=
          List.sorted_insertionSort tsLe table
        have htsS : (List.insertionSort tsLe table).Pairwise
            (fun a b => a.timestamp ≠ b.timestamp) :=
          (List.Perm.pairwise_iff (fun h => h.symm) hperm).mpr hts
        rw [← hsplit] at hsorted htsS
        have hle' : r.timestamp ≤ k.timestamp :=
          (List.pairwise_append.mp hsorted).2.2 r hrt k hkd
        have hne' : r.timestamp ≠ k.timestamp :=
          (List.pairwise_append.mp htsS).2.2 r hrt k hkd
        exact lt_of_le_of_ne hle' hne'
      · exact absurd (List.mem_filter.mpr ⟨hr, dropPred_true maxEntries table hid r hrd⟩) hnk

/-- The spec's cap-eviction example table: four rows with timestamps
`t1 < t2 < t3 < t4`. -/
def capTable : List LogRow := [⟨1, 1⟩, ⟨2, 2⟩, ⟨3, 3⟩, ⟨4, 4⟩]

example : cleanup_old_entries 3 capTable = (1, [⟨2, 2⟩, ⟨3, 3⟩, ⟨4, 4⟩]) := by decide

/-- Witness for `cleanup_old_entries_spec` at the spec's example: cap 3,
four rows; one row is deleted and three retained. -/
theorem cleanup_old_entries_spec_witness :
    (cleanup_old_entries 3 capTable).2.length ≤ 3 ∧
    (cleanup_old_entries 3 capTable).1 = capTable.length - 3 ∧
    (cleanup_old_entries 3 capTable).2.length = 3 := by
  have h := cleanup_old_entries_spec 3 capTable (by decide) (by decide)
  have h3 := h.2.2 (by decide)
  exact ⟨h.1, h3.1, h3.2.1⟩

/-! ### ThingsBoard topology materialisation (`src/tb_rust_client.rs`) -/

/-- `tb_rust_client::DeviceType`. -/
inductive DeviceType where
  | inverter : DeviceType
  | mppt : ℕ → DeviceType
  | string : ℕ → ℕ → DeviceType
  | unknown : DeviceType
deriving DecidableEq

/-- Decimal value of a digit list. -/
def digitsToNat (s : List Char) : ℕ := s.foldl (fun n c => n * 10 + (c.toNat - 48)) 0

/-- Rust `str::starts_with` (all strings here are ASCII). -/
def strStarts (s p : String) : Bool := List.isPrefixOf p.toList s.toList

/-- Drop the first `n` characters (Rust `strip_prefix` remainders). -/
def strDropChars (s : String) (n : ℕ) : String := String.mk (s.toList.drop n)

/-- Rust `str::parse::<u32>`: optional leading `+`, then one or more
ASCII digits, rejecting values that overflow 32 bits. -/
def rustParseU32 (s : String) : Option ℕ :=
  let t := if strStarts s "+" then strDropChars s 1 else s
  if t.toList.length ≠ 0 ∧ t.toList.all Char.isDigit ∧
      digitsToNat t.toList < 4294967296 then
    some (digitsToNat t.toList)
  else none

/-- Worker for `rustSplit`: scan the text, cutting at each occurrence of
the (nonempty) separator.  The fuel is the text length, enough for the
scan to finish. -/
def splitOnAuxL (sep : List Char) : ℕ → List Char → List Char → List (List Char)
  | _, acc, [] => [acc.reverse]
  | 0, acc, rest => [acc.reverse ++ rest]
  | fuel + 1, acc, c :: rest =>
    if List.isPrefixOf sep (c :: rest) then
      acc.reverse :: splitOnAuxL sep fuel [] (List.drop sep.length (c :: rest))
    else
      splitOnAuxL sep fuel (c :: acc) rest

/-- Rust `str::split(sep)` for a nonempty separator, as a list of pieces
(adjacent separators and boundary separators yield empty pieces). -/
def rustSplit (s sep : String) : List String :=
  if sep.toList.isEmpty then [s]
  else (splitOnAuxL sep.toList s.toList.length [] s.toList).map String.mk

/-- Rust `str::split_whitespace().next()`. -/
def firstWsToken (s : String) : Option String :=
  let l := (s.toList.dropWhile Char.isWhitespace).takeWhile (fun c => !Char.isWhitespace c)
  if l.isEmpty then none else some (String.mk l)

/-- `TbRustClient::parse_device_description`.  In the source a failed
number extraction falls through to the next `starts_with` test; the
prefixes are mutually exclusive, so the fall-through always ends at
`Unknown`, as written here. -/
def parse_device_description (d : String) : DeviceType :=
  if strStarts d "Inverter" then DeviceType.inverter
  else if strStarts d "MPPT - MPPT " then
    match (rustSplit d " ").get? 3 with
    | some w =>
      match rustParseU32 w with
      | some n => DeviceType.mppt n
      | none => DeviceType.unknown
    | none => DeviceType.unknown
  else if strStarts d "String - MPPT " then
    let parts := rustSplit d " - "
    if parts.length ≥ 3 then
      match parts.get? 1 with
      | some mpptPart =>
        if strStarts mpptPart "MPPT " then
          match rustParseU32 (strDropChars mpptPart 5) with
          | some n =>
            match parts.get? 2 with
            | some inputPart =>
              if strStarts inputPart "Input " then
                match rustParseU32 ((firstWsToken (strDropChars inputPart 6)).getD "0") with
                | some m => DeviceType.string n m
                | none => DeviceType.unknown
              else DeviceType.unknown
            | none => DeviceType.unknown
          | none => DeviceType.unknown
        else DeviceType.unknown
      | none => DeviceType.unknown
    else DeviceType.unknown
  else DeviceType.unknown

example : parse_device_description "Inverter (SG150CX)" = DeviceType.inverter := by decide
example : parse_device_description "MPPT - MPPT 1 (SG150CX)" = DeviceType.mppt 1 := by decide
example : parse_device_description "String - MPPT 1 - Input 2 (SG150CX)" =
    DeviceType.string 1 2 := by decide

/-- The distinct `(mppt, input)` keys of `string_groups` — the key set of
the `HashMap` built by `analyze_device_hierarchy` from the tag
descriptions (tags without a description are skipped). -/
def stringGroupKeys (descs : List (Option String)) : List (ℕ × ℕ) :=
  (descs.filterMap (fun d? => d?.bind (fun d =>
    match parse_device_description d with
    | DeviceType.string n m => some (n, m)
    | _ => none))).dedup

/-- The distinct MPPT numbers of `mppt_groups`. -/
def mpptGroupKeys (descs : List (Option String)) : List ℕ :=
  (descs.filterMap (fun d? => d?.bind (fun d =>
    match parse_device_description d with
    | DeviceType.mppt n => some n
    | _ => none))).dedup

/-- `strings.sort_by_key(|s| (s.mppt_number, s.input_number))`. -/
def keyLe (a b : ℕ × ℕ) : Prop := a.1 < b.1 ∨ (a.1 = b.1 ∧ a.2 ≤ b.2)

instance : DecidableRel keyLe := fun a b => by
  unfold keyLe; infer_instance

instance : IsTotal (ℕ × ℕ) keyLe := ⟨by
  intro a b
  unfold keyLe
  omega⟩

instance : IsTrans (ℕ × ℕ) keyLe := ⟨by
  intro a b c
  unfold keyLe
  omega⟩

/-- `mppets.sort_by_key(|m| m.mppt_number)`. -/
def natLe (a b : ℕ) : Prop := a ≤ b

instance : DecidableRel natLe := fun a b => Nat.decLe a b

instance : IsTotal ℕ natLe := ⟨Nat.le_total⟩

instance : IsTrans ℕ natLe := ⟨fun _ _ _ => Nat.le_trans⟩

/-- The `hierarchy.strings` key sequence: the string groups sorted by
`(mppt_number, input_number)`. -/
def sortedStringKeys (descs : List (Option String)) : List (ℕ × ℕ) :=
  List.insertionSort keyLe (stringGroupKeys descs)

/-- The `hierarchy.mppets` key sequence, sorted by MPPT number. -/
def sortedMpptKeys (descs : List (Option String)) : List ℕ :=
  List.insertionSort natLe (mpptGroupKeys descs)

/-- `format!("{:02}", n)`. -/
def fmt02 (n : ℕ) : String := if n < 10 then "0" ++ toString n else toString n

/-- `format!("{}-M{:02}", inverter_name, mppt_num)`. -/
def mpptDeviceName (invName : String) (n : ℕ) : String := invName ++ "-M" ++ fmt02 n

/-- The string-device name built in `create_mppt_and_string_devices`:
`format!("{}-PV{:02}", format!("{}-M{:02}", inverter, mppt), global_pv_index)`. -/
def stringDeviceName (invName : String) (n g : ℕ) : String :=
  mpptDeviceName invName n ++ "-PV" ++ fmt02 g

/-- Outcome of one `create_device` call against ThingsBoard. -/
inductive CreateOutcome where
  | ok : CreateOutcome
  | alreadyExists : CreateOutcome
  | otherErr : CreateOutcome
deriving DecidableEq

/-- Step 1 of `create_mppt_and_string_devices`: one device per MPPT; an
`already exists` error still records a placeholder device, any other
error skips the MPPT. -/
def create_mppt_devices (invName : String) (outcome : String → CreateOutcome) :
    List ℕ → List String
  | [] => []
  | n :: rest =>
    let name := mpptDeviceName invName n
    match outcome name with
    | CreateOutcome.otherErr => create_mppt_devices invName outcome rest
    | _ => name :: create_mppt_devices invName outcome rest

/-- Step 2 of `create_mppt_and_string_devices`: the string-device loop,
carrying `global_pv_index` (`g`), which starts at 1, is used in the name
before the create call, and is incremented only when a device was
recorded. -/
def create_string_devices (invName : String) (outcome : String → CreateOutcome) :
    List (ℕ × ℕ) → ℕ → List String
  | [], _ => []
  | k :: rest, g =>
    let name := stringDeviceName invName k.1 g
    match outcome name with
    | CreateOutcome.otherErr => create_string_devices invName outcome rest g
    | _ => name :: create_string_devices invName outcome rest (g + 1)

theorem create_string_devices_enum (invName : String) (outcome : String → CreateOutcome)
    (hok : ∀ s, outcome s ≠ CreateOutcome.otherErr) :
    ∀ (ks : List (ℕ × ℕ)) (g : ℕ),
      create_string_devices invName outcome ks g =
        (ks.enumFrom g).map (fun p => stringDeviceName invName p.2.1 p.1)
  | [], _ => rfl
  | k :: rest, g => by
    have ih := create_string_devices_enum invName outcome hok rest (g + 1)
    cases h : outcome (stringDeviceName invName k.1 g) with
    | otherErr => exact absurd h (hok _)
    | ok =>
      simp only [create_string_devices, h, List.enumFrom, List.map]
      rw [ih]
    | alreadyExists =>
      simp only [create_string_devices, h, List.enumFrom, List.map]
      rw [ih]

/-- C3: when every create call succeeds (or reports "already exists"),
the materializer names the string children of an inverter
`{inverter}-M{n:02}-PV{g:02}` where `g` is the 1-based position of the
string in the `(mppt, input)`-sorted key list — a single monotonically
increasing index across all strings of the inverter, never reset at an
MPPT boundary.  The key list is sorted and duplicate-free. -/
theorem string_device_naming_spec (invName : String) (outcome : String → CreateOutcome)
    (descs : List (Option String)) (hok : ∀ s, outcome s ≠ CreateOutcome.otherErr) :
    create_string_devices invName outcome (sortedStringKeys descs) 1 =
      ((sortedStringKeys descs).enumFrom 1).map
        (fun p => stringDeviceName invName p.2.1 p.1) ∧
    List.Sorted keyLe (sortedStringKeys descs) ∧
    (sortedStringKeys descs).Nodup := by
  refine ⟨create_string_devices_enum invName outcome hok _ 1,
    List.sorted_insertionSort _ _, ?_⟩
  exact ((List.perm_insertionSort keyLe _).nodup_iff).mpr (List.nodup_dedup _)

/-- The spec's topology example: one inverter with one MPPT-1 tag, two
MPPT-1 string tags and one MPPT-2 string tag (model `M`). -/
def tbExampleDescs : List (Option String) :=
  [some "MPPT - MPPT 1 (M)", some "String - MPPT 1 - Input 1 (M)",
   some "String - MPPT 1 - Input 2 (M)", some "String - MPPT 2 - Input 1 (M)"]

example : sortedStringKeys tbExampleDescs = [(1, 1), (1, 2), (2, 1)] := by decide
example : sortedMpptKeys tbExampleDescs = [1] := by decide
example : create_mppt_devices "X-I01" (fun _ => CreateOutcome.ok)
    (sortedMpptKeys tbExampleDescs) = ["X-I01-M01"] := by decide
example : create_string_devices "X-I01" (fun _ => CreateOutcome.ok)
    (sortedStringKeys tbExampleDescs) 1 =
    ["X-I01-M01-PV01", "X-I01-M01-PV02", "X-I01-M02-PV03"] := by decide

/-- Witness for `string_device_naming_spec` at the spec's own example. -/
theorem string_device_naming_spec_witness :
    create_string_devices "X-I01" (fun _ => CreateOutcome.ok)
        (sortedStringKeys tbExampleDescs) 1 =
      ((sortedStringKeys tbExampleDescs).enumFrom 1).map
        (fun p => stringDeviceName "X-I01" p.2.1 p.1) ∧
    (sortedStringKeys tbExampleDescs).Nodup :=
  ⟨(string_device_naming_spec "X-I01" (fun _ => CreateOutcome.ok) tbExampleDescs
      (fun _ h => CreateOutcome.noConfusion h)).1,
   (string_device_naming_spec "X-I01" (fun _ => CreateOutcome.ok) tbExampleDescs
      (fun _ h => CreateOutcome.noConfusion h)).2.2⟩

/-! ### IEC 104 client (`src/iec104.rs`) -/

/-- `Iec104Client` mutable state: stream presence and the two sequence
counters (`u16` values). -/
structure Iec104State where
  connected : Bool
  send_sequence : ℕ
  receive_sequence : ℕ
deriving DecidableEq

/-- `put_u16_le`. -/
def u16le (x : ℕ) : List ℕ := [x % 256, x / 256 % 256]

/-- `send_u_format(control)`: start byte, length 4, control, three zero
bytes. -/
def send_u_format_frame (control : ℕ) : List ℕ := [0x68, 4, control, 0, 0, 0]

/-- The 16-byte general-interrogation I-frame `send_interrogation`
assembles (`<< 1` wraps in `u16`). -/
def iec104InterrogationFrame (commonAddress : ℕ) (st : Iec104State) : List ℕ :=
  [0x68, 14] ++ u16le (st.send_sequence * 2 % 65536) ++
    u16le (st.receive_sequence * 2 % 65536) ++
    [100, 0x01, 0x06, 0] ++ u16le commonAddress ++ [0, 0, 0, 20]

/-- `send_interrogation`: errors when not connected; otherwise emits the
I-frame and bumps `send_sequence` modulo 32768. -/
def send_interrogation (commonAddress : ℕ) (st : Iec104State) :
    Option (List ℕ × Iec104State) :=
  if st.connected then
    some (iec104InterrogationFrame commonAddress st,
      { st with send_sequence := (st.send_sequence + 1) % 32768 })
  else none

/-- `parse_u_format`: at least 6 bytes and `(control & 0x03) == U_FORMAT`. -/
def parse_u_format (frame : List ℕ) : Option ℕ :=
  if frame.length ≥ 6 then
    (if frame.getD 2 0 % 4 = 3 then some (frame.getD 2 0) else none)
  else none

/-- The handshake half of `connect`, after the TCP stream opened and
STARTDT_ACT went out: the reply must parse as U-format STARTDT_CON
(0x0B); any other reply is an error. -/
def iec104ConnectHandshake (reply : List ℕ) : Except String Unit :=
  match parse_u_format reply with
  | some u =>
    if u = 0x0B then Except.ok () else Except.error "Unexpected U-format response"
  | none => Except.error "Expected U-format STARTDT_CON"

/-- `schedule_group_loop`'s reaction to the connect result: `Ok` writes
`Connected` and enters the polling loop, `Err` writes `Error` and does
not poll. -/
def connectStepPoll (r : Except String Unit) : Bool × String :=
  match r with
  | Except.ok _ => (true, "Connected")
  | Except.error _ => (false, "Error")

/-- `parse_data_frame` (`&self`): I-format check on the control byte,
then ASDU decode for types 13 (`M_ME_NC_1`), 11 (`M_ME_NB_1`) and 1
(`M_SP_NA_1`); anything else yields no entries. -/
def parse_data_frame (deviceId : String) (frame : List ℕ) (ts : ℤ) :
    Option (List LogEntry) :=
  if frame.length < 6 then none
  else if frame.getD 2 0 % 2 ≠ 0 then none
  else if frame.length < 12 then none
  else
    let typeId := frame.getD 6 0
    let ioa := frame.getD 12 0 + frame.getD 13 0 * 256 + frame.getD 14 0 * 65536
    if typeId = 13 then
      if frame.length ≥ 19 then
        some [{ id := none, device_id := deviceId, tag_name := "float_" ++ toString ioa,
                value := f32FromLeBytes
                  [frame.getD 15 0, frame.getD 16 0, frame.getD 17 0, frame.getD 18 0],
                quality := "Good", timestamp := ts, unit := none }]
      else none
    else if typeId = 11 then
      if frame.length ≥ 17 then
        some [{ id := none, device_id := deviceId, tag_name := "scaled_" ++ toString ioa,
                value := Fp.fin (i16OfU16 (frame.getD 15 0 + frame.getD 16 0 * 256)),
                quality := "Good", timestamp := ts, unit := none }]
      else none
    else if typeId = 1 then
      if frame.length ≥ 16 then
        some [{ id := none, device_id := deviceId, tag_name := "sp_" ++ toString ioa,
                value := Fp.fin (if frame.getD 15 0 % 2 = 1 then 1 else 0),
                quality := "Good", timestamp := ts, unit := none }]
      else none
    else none

/-- The per-frame step of `read_tags`: `parse_data_frame` borrows the
client immutably, so receiving a frame leaves the state — in particular
`receive_sequence` — unchanged. -/
def iec104HandleFrame (deviceId : String) (st : Iec104State) (frame : List ℕ) (ts : ℤ) :
    Iec104State × List LogEntry :=
  (st, (parse_data_frame deviceId frame ts).getD [])

/-- A well-formed single-point (`M_SP_NA_1`) I-frame carrying IOA 5,
value ON. -/
def iframeExample : List ℕ := [0x68, 14, 0, 0, 0, 0, 1, 1, 6, 0, 1, 0, 5, 0, 0, 1]

/-- C6 counterexample: receiving (and successfully parsing) an I-frame
does not increment `receive_sequence` — nothing in the client ever
updates it. -/
theorem iec104_recv_seq_counterexample :
    (parse_data_frame "d" iframeExample 0).isSome = true ∧
    iframeExample.getD 2 0 % 2 = 0 ∧
    (iec104HandleFrame "d" ⟨true, 0, 0⟩ iframeExample 0).1.receive_sequence = 0 ∧
    ¬((iec104HandleFrame "d" ⟨true, 0, 0⟩ iframeExample 0).1.receive_sequence =
      (0 + 1) % 32768) := by decide

/-- C6 (amended): each transmitted I-frame increments the send counter
by exactly one modulo 32768 and carries an I-format (even) control byte,
but the receive counter is never updated: receiving an I-frame leaves
the client state unchanged. -/
theorem iec104_sequence_spec (st : Iec104State) (ca : ℕ) (hconn : st.connected = true) :
    send_interrogation ca st =
      some (iec104InterrogationFrame ca st,
        { st with send_sequence := (st.send_sequence + 1) % 32768 }) ∧
    (iec104InterrogationFrame ca st).getD 2 0 % 2 = 0 ∧
    ∀ deviceId frame ts, (iec104HandleFrame deviceId st frame ts).1 = st := by
  refine ⟨by simp [send_interrogation, hconn], ?_, fun _ _ _ => rfl⟩
  show (st.send_sequence * 2 % 65536) % 256 % 2 = 0
  omega

/-- Witness for `iec104_sequence_spec` at a concrete connected state. -/
theorem iec104_sequence_spec_witness :
    send_interrogation 1 ⟨true, 5, 7⟩ =
      some (iec104InterrogationFrame 1 ⟨true, 5, 7⟩, ⟨true, 6, 7⟩) ∧
    (iec104InterrogationFrame 1 ⟨true, 5, 7⟩).getD 2 0 % 2 = 0 ∧
    (iec104HandleFrame "d" ⟨true, 5, 7⟩ iframeExample 0).1 = ⟨true, 5, 7⟩ := by
  have h := iec104_sequence_spec ⟨true, 5, 7⟩ 1 rfl
  exact ⟨h.1, h.2.1, h.2.2 "d" iframeExample 0⟩

/-- C7: the client greets with the exact STARTDT_ACT U-frame
`68 04 07 00 00 00`; the handshake succeeds exactly when the reply is at
least 6 bytes whose control byte is U-format STARTDT_CON (0x0B); in
particular a STOPDT_CON reply `68 04 23 00 00 00` is rejected and the
scheduler then writes status `Error` and never enters the polling loop. -/
theorem iec104_connect_handshake_spec (reply : List ℕ) :
    send_u_format_frame 0x07 = [0x68, 0x04, 0x07, 0x00, 0x00, 0x00] ∧
    ((iec104ConnectHandshake reply).isOk = true ↔
      (reply.length ≥ 6 ∧ reply.getD 2 0 % 4 = 3 ∧ reply.getD 2 0 = 0x0B)) ∧
    iec104ConnectHandshake [0x68, 0x04, 0x23, 0x00, 0x00, 0x00] =
      Except.error "Unexpected U-format response" ∧
    connectStepPoll (iec104ConnectHandshake [0x68, 0x04, 0x23, 0x00, 0x00, 0x00]) =
      (false, "Error") := by
  refine ⟨rfl, ?_, rfl, rfl⟩
  by_cases hlen : reply.length ≥ 6
  · by_cases h0b : reply.getD 2 0 = 0x0B
    · have hctl : reply.getD 2 0 % 4 = 3 := by rw [h0b]
      have hok : iec104ConnectHandshake reply = Except.ok () := by
        unfold iec104ConnectHandshake parse_u_format
        rw [if_pos hlen, if_pos hctl, h0b]
        rfl
      exact iff_of_true (by rw [hok]; rfl) ⟨hlen, hctl, h0b⟩
    · by_cases hctl : reply.getD 2 0 % 4 = 3
      · have herr : iec104ConnectHandshake reply =
            Except.error "Unexpected U-format response" := by
          unfold iec104ConnectHandshake parse_u_format
          rw [if_pos hlen, if_pos hctl]
          show (if reply.getD 2 0 = 0x0B then Except.ok () else
            Except.error "Unexpected U-format response") = _
          rw [if_neg h0b]
        refine iff_of_false ?_ fun h => h0b h.2.2
        rw [herr]
        exact fun hh => Bool.noConfusion hh
      · have herr : iec104ConnectHandshake reply =
            Except.error "Expected U-format STARTDT_CON" := by
          unfold iec104ConnectHandshake parse_u_format
          rw [if_pos hlen, if_neg hctl]
        refine iff_of_false ?_ fun h => hctl h.2.1
        rw [herr]
        exact fun hh => Bool.noConfusion hh
  · have herr : iec104ConnectHandshake reply =
        Except.error "Expected U-format STARTDT_CON" := by
      unfold iec104ConnectHandshake parse_u_format
      rw [if_neg hlen]
    refine iff_of_false ?_ fun h => hlen h.1
    rw [herr]
    exact fun hh => Bool.noConfusion hh

/-! ### `LoggingService::start_device` (`src/logging.rs`) -/

/-- `database::DeviceInstance`, reduced to the fields `start_device`
consults; `protocol_config_valid` models whether
`serde_json::from_str::<ProtocolConfig>` succeeds on the stored JSON. -/
structure DeviceInstance where
  enabled : Bool
  protocol_config_valid : Bool
  polling_interval_ms : ℕ
  timeout_ms : ℕ
  retry_count : ℕ
deriving DecidableEq

/-- `database::ScheduleGroup` (the fields the scheduler consults). -/
structure ScheduleGroup where
  id : String
  enabled : Bool
  polling_interval_ms : ℕ
deriving DecidableEq

/-- The distinct schedule-group ids that receive at least one tag in
`schedule_group_tags`: enabled tags only, group id defaulting to
`medium_freq`, and only groups that exist and are enabled. -/
def enabledGroupIds (tags : List DeviceTag) (groups : List ScheduleGroup) : List String :=
  ((tags.filter (fun t => t.enabled)).filterMap (fun t =>
    let gid := t.schedule_group_id.getD "medium_freq"
    match groups.find? (fun g => g.id == gid) with
    | some g => if g.enabled then some gid else none
    | none => none)).dedup

/-- `LoggingService::start_device`, returning the number of spawned
polling loops and the device-status writes in order.  `stop_device`
(called unconditionally once the config parses) persists `Stopped`;
`Starting` is only persisted after the per-group loops are spawned, and
the empty-grouping branch returns `Ok` before reaching it. -/
def start_device (dev? : Option DeviceInstance) (tags : List DeviceTag)
    (groups : List ScheduleGroup) : Except String (ℕ × List String) :=
  match dev? with
  | none => Except.error "Device not found"
  | some dev =>
    if dev.enabled = false then Except.ok (0, [])
    else if dev.protocol_config_valid = false then
      Except.error "Failed to parse protocol config"
    else
      let gids := enabledGroupIds tags groups
      if gids.isEmpty then Except.ok (0, ["Stopped"])
      else Except.ok (gids.length, ["Stopped", "Starting"])

/-- An enabled device whose protocol config parses. -/
def idleDevice : DeviceInstance :=
  { enabled := true, protocol_config_valid := true, polling_interval_ms := 1000,
    timeout_ms := 500, retry_count := 3 }

/-- C8 counterexample: starting an enabled device with no tags at all
succeeds with zero loops, but the only status ever persisted by the call
is `Stopped` (from the internal `stop_device`); `Starting` is never
written, so the persisted status cannot "remain `Starting`". -/
theorem start_device_zero_tags_counterexample :
    start_device (some idleDevice) [] [] = Except.ok (0, ["Stopped"]) ∧
    "Starting" ∉ ["Stopped"] := by
  refine ⟨rfl, ?_⟩
  intro h
  rcases List.mem_singleton.mp h with h'
  exact absurd h' (by decide)

/-- C8 (amended): `start` on an enabled device whose tags yield no
enabled (tag, enabled-group) pair succeeds with zero polling loops, and
the persisted status it leaves is `Stopped` — written by the embedded
`stop_device` call — not `Starting`. -/
theorem start_device_zero_tags_spec (dev : DeviceInstance) (tags : List DeviceTag)
    (groups : List ScheduleGroup) (hen : dev.enabled = true)
    (hpc : dev.protocol_config_valid = true)
    (hzero : enabledGroupIds tags groups = []) :
    start_device (some dev) tags groups = Except.ok (0, ["Stopped"]) := by
  simp [start_device, hen, hpc, hzero]

/-- Witness for `start_device_zero_tags_spec`: the concrete enabled
device with an empty tag list. -/
theorem start_device_zero_tags_spec_witness :
    start_device (some idleDevice) [] [] = Except.ok (0, ["Stopped"]) :=
  start_device_zero_tags_spec idleDevice [] [] rfl rfl rfl

/-- Witness for `read_specific_tags_one_entry_per_tag`: a connected
client reading one uint16 tag whose registers hold 0xFFFF. -/
theorem read_specific_tags_one_entry_per_tag_witness :
    (read_specific_tags (some allFFTransport) "dev" 0 [] [sampleTag]).2 =
      Except.ok ([sampleTag].map (expectedEntry (some allFFTransport) "dev" 0)) ∧
    expectedEntry (some allFFTransport) "dev" 0 sampleTag =
      goodEntry "dev" 0 sampleTag
        (apply_scaling (Fp.fin 65535) (tagConfigOfDeviceTag sampleTag)) :=
  have h := read_specific_tags_one_entry_per_tag (some allFFTransport) "dev" 0 [] [sampleTag]
  ⟨h.1, (h.2.2 sampleTag (List.mem_singleton.mpr rfl)).1 (Fp.fin 65535) (by decide)⟩
